import Mathlib

/-!
Shallow embedding of the CDI API-server request authorizer
(`pkg/apiserver/authorizer.go`) and proofs about its behavior.

Go strings are modelled as Lean `String`s, with the handful of library
string operations the authorizer uses (`strings.Split`, `strings.ToLower`,
`strings.ToUpper`, `strings.EqualFold`, slicing, `url.PathUnescape`)
re-implemented by structural recursion on the underlying character list so
that every definition evaluates by kernel reduction.  All header names and
path segments of interest are ASCII, where byte-wise and character-wise
processing agree.

A Go `http.Header` (`map[string][]string`) is modelled as an association
list together with an exact-key lookup; the list order stands for one
possible iteration order of the Go map (Go leaves the iteration order of a
`range` over a map unspecified), and the "same map" relation between two
such lists is `List.Perm` plus distinctness of keys.  A Go map being built
up by assignment (the `extras` map) is modelled extensionally as a function
`String → Option (List String)`.

The `SubjectAccessReview` create call is passed to `Authorize` as a
function argument, and `Authorize` additionally returns the number of times
that call was made.  `isAuthenticated` eagerly dereferences `req.Request`
in a log-call argument before its nil check (authorizer.go:195), so on a
nil http request it panics instead of returning; `isAuthenticated` and
`Authorize` therefore return `Option` values, with `none` modelling that
panic.
-/

namespace CdiAuthorizer

/-- Model of `strings.ToLower` (simple case folding on basic latin letters, which
covers every string the authorizer handles). -/
def strToLower (s : String) : String := String.mk (s.data.map Char.toLower)

/-- Model of `strings.ToUpper` (simple case folding on basic latin letters). -/
def strToUpper (s : String) : String := String.mk (s.data.map Char.toUpper)

/-- Model of Go `len(s)` (character-level model of the byte length). -/
def strLength (s : String) : Nat := s.data.length

/-- The Go slice `s[:n]`. -/
def strTake (s : String) (n : Nat) : String := String.mk (s.data.take n)

/-- The Go slice `s[n:]`. -/
def strDrop (s : String) (n : Nat) : String := String.mk (s.data.drop n)

/-- Model of `strings.EqualFold` restricted to simple (ASCII) case folding. -/
def equalFold (s t : String) : Bool := strToLower s == strToLower t

/-- Helper for `strings.Split(s, "/")`: `acc` holds the characters of the
current segment in reverse. -/
def splitSlashAux : List Char → List Char → List String
  | [], acc => [String.mk acc.reverse]
  | '/' :: rest, acc => String.mk acc.reverse :: splitSlashAux rest []
  | c :: rest, acc => splitSlashAux rest (c :: acc)

/-- Model of `strings.Split(s, "/")`: the `/`-delimited segments of `s`.  On the
empty string this yields `[""]`, exactly as in Go. -/
def splitSlash (s : String) : List String := splitSlashAux s.data []

/-- Value of a hexadecimal digit, as in Go's `unhex`. -/
def hexVal (c : Char) : Option Nat :=
  if 'a' ≤ c ∧ c ≤ 'f' then some (c.toNat - 'a'.toNat + 10)
  else if 'A' ≤ c ∧ c ≤ 'F' then some (c.toNat - 'A'.toNat + 10)
  else if '0' ≤ c ∧ c ≤ '9' then some (c.toNat - '0'.toNat)
  else none

/-- Character-level model of `url.PathUnescape`: each `%XY` with two hex
digits decodes to the byte `0xXY`; a `%` not followed by two hex digits is
an error (`none`). -/
def pathUnescapeChars : List Char → Option (List Char)
  | [] => some []
  | '%' :: c1 :: c2 :: rest =>
    match hexVal c1, hexVal c2 with
    | some h1, some h2 => (pathUnescapeChars rest).map (fun cs => Char.ofNat (16 * h1 + h2) :: cs)
    | _, _ => none
  | '%' :: _ => none
  | c :: rest => (pathUnescapeChars rest).map (fun cs => c :: cs)

/-- Model of `url.PathUnescape` on strings. -/
def pathUnescape (s : String) : Option String :=
  (pathUnescapeChars s.data).map String.mk

/-- Function `unescapeExtraKey` (authorizer.go:71): decode `%`-encoded bytes; always
record extra strings, even if malformed/unencoded. -/
def unescapeExtraKey (encodedKey : String) : String :=
  match pathUnescape encodedKey with
  | some key => key
  | none => encodedKey

/-- Space-separated concatenation, as in `fmt`'s rendering of a slice. -/
def joinSpace : List String → String
  | [] => ""
  | [s] => s
  | s :: rest => s ++ " " ++ joinSpace rest

/-- Rendering of `fmt`'s `%+v` for a `[]string`. -/
def formatStringSlice (l : List String) : String :=
  "[" ++ joinSpace l ++ "]"

/-- Exact-key lookup in a Go map modelled as an association list
(`value, ok := m[k]`). -/
def goMapLookup {β : Type} : List (String × β) → String → Option β
  | [], _ => none
  | kv :: rest, k => if kv.1 = k then some kv.2 else goMapLookup rest k

/-- Assignment `m[k] = v` on a Go map modelled extensionally. -/
def mapUpdate (m : String → Option (List String)) (k : String) (v : List String) :
    String → Option (List String) :=
  fun x => if x = k then some v else m x

/-- Type `http.Header`: a Go `map[string][]string`, modelled as an association
list whose order stands for the map's (unspecified) iteration order. -/
abbrev Headers := List (String × List String)

/-- The auth config snapshot (`GetAuthConfig()`): which header names carry
user identity, group membership, and extra-attribute prefixes. -/
structure AuthConfig where
  UserHeaders : List String
  GroupHeaders : List String
  ExtraPrefixHeaders : List String

/-- Type `tls.ConnectionState`: only the fields the authorizer reads.
Certificates are opaque. -/
structure TLSConnectionState where
  PeerCertificates : List String
  VerifiedChains : List (List String)

/-- Type `url.URL`: only the `Path` field is read. -/
structure GoURL where
  Path : String

/-- Type `http.Request`: the fields the authorizer reads.  `URL` and `TLS` are
pointers in Go, hence `Option` here. -/
structure HttpRequest where
  Method : String
  URL : Option GoURL
  Header : Headers
  TLS : Option TLSConnectionState

/-- Type `restful.Request`: wraps a (possibly nil) `*http.Request`. -/
structure RestfulRequest where
  Request : Option HttpRequest

/-- Type `authorization.ResourceAttributes` (the fields the authorizer sets). -/
structure ResourceAttributes where
  Namespace : String
  Verb : String
  Group : String
  Version : String
  Resource : String
deriving DecidableEq

/-- Type `authorization.SubjectAccessReviewSpec`.  The field `Extra` is a Go map from
string to `ExtraValue` (`[]string`), modelled extensionally as a function. -/
structure SubjectAccessReviewSpec where
  User : String
  Groups : List String
  Extra : String → Option (List String)
  ResourceAttributes : Option ResourceAttributes

/-- Type `authorization.SubjectAccessReview` (only the spec is built locally). -/
structure SubjectAccessReview where
  Spec : SubjectAccessReviewSpec

/-- The status returned by the SubjectAccessReview create call. -/
structure SARStatus where
  Allowed : Bool
  Reason : String
deriving DecidableEq

/-- The triple returned by `Authorize`. -/
structure AuthResult where
  allowed : Bool
  reason : String
  err : Option String
deriving DecidableEq

/-- Function `matchHeaders` (authorizer.go:56): scan `toMatch` in order, return the
values of the first name present in the header map; otherwise the
"one of these headers required for authorization" error. -/
def matchHeaders (headers : Headers) (toMatch : List String) :
    Except String (List String) :=
  match toMatch.findSome? (fun header => goMapLookup headers header) with
  | some value => Except.ok value
  | none =>
      Except.error ("one of these headers required for authorization: " ++
        formatStringSlice toMatch)

/-- Function `hasPrefixIgnoreCase` (authorizer.go:67). -/
def hasPrefixIgnoreCase (s p : String) : Bool :=
  decide (strLength p ≤ strLength s) && equalFold (strTake s (strLength p)) p

/-- The extra key derived from header name `k` under configured prefix `p`
(authorizer.go:85): strip the prefix, lower-case, percent-decode. -/
def deriveExtraKey (p k : String) : String :=
  unescapeExtraKey (strToLower (strDrop k (strLength p)))

/-- Function `getUserExtras` (authorizer.go:79): for every configured prefix, for
every header matching it case-insensitively, record all of that header's
values under the derived key.  The resulting Go map is modelled
extensionally as a function. -/
def getUserExtras (headers : Headers) (toMatch : List String) :
    String → Option (List String) :=
  toMatch.foldl
    (fun extras p =>
      headers.foldl
        (fun ex kv =>
          if hasPrefixIgnoreCase kv.1 p then
            mapUpdate ex (deriveExtraKey p kv.1) kv.2
          else ex)
        extras)
    (fun _ => none)

/-- Table `verbMap` (authorizer.go:95): only supporting create for now. -/
def verbMap : List (String × String) := [("POST", "create")]

/-- The single API group this service serves.  The constant
`uploadTokenGroup` is declared elsewhere in the repository (outside the
given sources); its value is taken from the URL example in the source
comment (authorizer.go:113): `upload.cdi.kubevirt.io`. -/
def uploadTokenGroup : String := "upload.cdi.kubevirt.io"

/-- Function `generateAccessReview` (authorizer.go:99). -/
def generateAccessReview (authConfig : AuthConfig) (req : RestfulRequest) :
    Except String SubjectAccessReview :=
  match req.Request with
  | none => Except.error ("empty http request")
  | some httpRequest =>
    let headers := httpRequest.Header
    match httpRequest.URL with
    | none => Except.error ("no URL in http request")
    | some url =>
      let pathSplit := splitSlash url.Path
      if pathSplit.length ≠ 7 then
        Except.error ("unknown api endpoint " ++ url.Path)
      else
        let group := pathSplit.getD 2 ""
        let version := pathSplit.getD 3 ""
        let reqNamespace := pathSplit.getD 5 ""
        let resource := pathSplit.getD 6 ""
        let userExtras := getUserExtras headers authConfig.ExtraPrefixHeaders
        if group ≠ uploadTokenGroup then
          Except.error ("unknown api group " ++ group)
        else if resource ≠ "uploadtokenrequests" then
          Except.error ("unknown resource type " ++ resource)
        else
          match matchHeaders headers authConfig.UserHeaders with
          | Except.error e => Except.error e
          | Except.ok users =>
            if users.length = 0 then
              Except.error ("no user header found")
            else
              match matchHeaders headers authConfig.GroupHeaders with
              | Except.error e => Except.error e
              | Except.ok userGroups =>
                let method := strToUpper httpRequest.Method
                match goMapLookup verbMap method with
                | none => Except.error ("unsupported HTTP method " ++ method)
                | some verb =>
                  Except.ok
                    { Spec :=
                        { User := users.headD ("")
                          Groups := userGroups
                          Extra := userExtras
                          ResourceAttributes := some
                            { Namespace := reqNamespace
                              Verb := verb
                              Group := group
                              Version := version
                              Resource := resource } } }

/-- Function `isInfoEndpoint` (authorizer.go:177): paths with at most 4 `/`-separated
segments, or whose 5th segment is `version`, are discovery endpoints. -/
def isInfoEndpoint (req : RestfulRequest) : Bool :=
  match req.Request with
  | none => false
  | some httpRequest =>
    match httpRequest.URL with
    | none => false
    | some url =>
      let pathSplit := splitSlash url.Path
      if pathSplit.length ≤ 4 ∨ (pathSplit.length > 4 ∧ pathSplit.getD 4 "" = "version") then
        true
      else
        false

/-- Function `isAuthenticated` (authorizer.go:193): a presented peer certificate and
a verified chain are required.  Before the combined nil check at line 200,
line 195 eagerly evaluates `req.Request.TLS` as an argument of
`klog.V(3).Infof` (Go evaluates call arguments regardless of log
verbosity), so a nil `Request` dereferences a nil pointer and the function
panics — its `req.Request == nil` branch is dead code.  `none` models that
panic; `some b` models a normal return of `b`. -/
def isAuthenticated (req : RestfulRequest) : Option Bool :=
  match req.Request with
  | none => none
  | some httpRequest =>
    match httpRequest.TLS with
    | none => some false
    | some tls =>
      if tls.PeerCertificates.length = 0 ∨ tls.VerifiedChains.length = 0 then
        some false
      else
        some true

/-- Function `isAllowed` (authorizer.go:209). -/
def isAllowed (result : SARStatus) : Bool × String :=
  if result.Allowed then (true, "") else (false, result.Reason)

/-- Function `Authorize` (authorizer.go:217).  The SubjectAccessReview create call is
supplied as a function (`subjectAccessReview.Create`); the second component
of the result counts how many times it was invoked.  The outer `Option`
propagates the nil-pointer panic of `isAuthenticated` on a nil `Request`
(`none` = the call panics instead of returning a triple); note the
info-endpoint check returns before `isAuthenticated` is ever called. -/
def Authorize (authConfig : AuthConfig)
    (sarCreate : SubjectAccessReview → Except String SARStatus)
    (req : RestfulRequest) : Option (AuthResult × Nat) :=
  if isInfoEndpoint req then
    some ({ allowed := true, reason := "", err := none }, 0)
  else
    match isAuthenticated req with
    | none => none
    | some auth =>
      if ¬ auth then
        some ({ allowed := false, reason := "request is not authenticated", err := none }, 0)
      else
        match generateAccessReview authConfig req with
        | Except.error e =>
            some ({ allowed := false, reason := e, err := none }, 0)
        | Except.ok r =>
          match sarCreate r with
          | Except.error e =>
              some ({ allowed := false, reason := "internal server error", err := some e }, 1)
          | Except.ok result =>
              let p := isAllowed result
              some ({ allowed := p.1, reason := p.2, err := none }, 1)

/-! ### Concrete fixtures used by witnesses and counterexamples -/

/-- The default header-name configuration (constants at authorizer.go:38). -/
def defaultConfig : AuthConfig :=
  { UserHeaders := ["X-Remote-User"]
    GroupHeaders := ["X-Remote-Group"]
    ExtraPrefixHeaders := ["X-Remote-Extra-"] }

/-- A transport state carrying a presented and verified peer certificate. -/
def goodTLS : TLSConnectionState :=
  { PeerCertificates := ["peerCert"], VerifiedChains := [["peerCert"]] }

/-- A well-formed 7-segment upload-token path. -/
def goodPath : String :=
  "/apis/upload.cdi.kubevirt.io/v1beta1/namespaces/default/uploadtokenrequests"

/-- A fully well-formed, authenticated request. -/
def reqWellFormed : RestfulRequest :=
  ⟨some
    { Method := "post"
      URL := some ⟨goodPath⟩
      Header := [("X-Remote-User", ["alice"]), ("X-Remote-Group", ["g1", "g2"])]
      TLS := some goodTLS }⟩

/-- Like `reqWellFormed` but with no group header at all. -/
def reqNoGroupHeader : RestfulRequest :=
  ⟨some
    { Method := "post"
      URL := some ⟨goodPath⟩
      Header := [("X-Remote-User", ["alice"])]
      TLS := some goodTLS }⟩

/-- A request to a protected path with no TLS state at all. -/
def reqNoTLS : RestfulRequest :=
  ⟨some
    { Method := "post"
      URL := some ⟨goodPath⟩
      Header := [("X-Remote-User", ["alice"]), ("X-Remote-Group", ["g1"])]
      TLS := none }⟩

/-- A request whose URL is present but whose path is the empty string;
it carries no TLS state and no headers. -/
def reqEmptyPath : RestfulRequest :=
  ⟨some { Method := "GET", URL := some ⟨""⟩, Header := [], TLS := none }⟩

/-- An unauthenticated request to a 5-segment path whose 5th segment is the
discovery marker. -/
def reqVersionPath : RestfulRequest :=
  ⟨some { Method := "GET", URL := some ⟨"/apis/g/v/version"⟩, Header := [], TLS := none }⟩

/-- A policy client that always answers with a deny verdict. -/
def denyClient : SubjectAccessReview → Except String SARStatus :=
  fun _ => Except.ok { Allowed := false, Reason := "forbidden" }

/-- A policy client that always answers with an allow verdict. -/
def allowClient : SubjectAccessReview → Except String SARStatus :=
  fun _ => Except.ok { Allowed := true, Reason := "" }

/-- A policy client whose call always fails (transport fault). -/
def errClient : SubjectAccessReview → Except String SARStatus :=
  fun _ => Except.error ("boom")

/-! ### Branch lemmas for `Authorize` -/

theorem authorize_of_info {authConfig sarCreate req} (hinfo : isInfoEndpoint req = true) :
    Authorize authConfig sarCreate req =
      some ({ allowed := true, reason := "", err := none }, 0) := by
  simp [Authorize, hinfo]

theorem authorize_of_panic {authConfig sarCreate req}
    (hinfo : isInfoEndpoint req = false) (hauth : isAuthenticated req = none) :
    Authorize authConfig sarCreate req = none := by
  simp [Authorize, hinfo, hauth]

theorem authorize_of_unauth {authConfig sarCreate req}
    (hinfo : isInfoEndpoint req = false) (hauth : isAuthenticated req = some false) :
    Authorize authConfig sarCreate req =
      some ({ allowed := false, reason := "request is not authenticated", err := none }, 0) := by
  simp [Authorize, hinfo, hauth]

theorem authorize_of_genError {authConfig sarCreate req e}
    (hinfo : isInfoEndpoint req = false) (hauth : isAuthenticated req = some true)
    (hgen : generateAccessReview authConfig req = Except.error e) :
    Authorize authConfig sarCreate req =
      some ({ allowed := false, reason := e, err := none }, 0) := by
  simp [Authorize, hinfo, hauth, hgen]

theorem authorize_of_clientError {authConfig sarCreate req r e}
    (hinfo : isInfoEndpoint req = false) (hauth : isAuthenticated req = some true)
    (hgen : generateAccessReview authConfig req = Except.ok r)
    (hc : sarCreate r = Except.error e) :
    Authorize authConfig sarCreate req =
      some ({ allowed := false, reason := "internal server error", err := some e }, 1) := by
  simp [Authorize, hinfo, hauth, hgen, hc]

theorem authorize_of_clientOk {authConfig sarCreate req r st}
    (hinfo : isInfoEndpoint req = false) (hauth : isAuthenticated req = some true)
    (hgen : generateAccessReview authConfig req = Except.ok r)
    (hc : sarCreate r = Except.ok st) :
    Authorize authConfig sarCreate req =
      some ({ allowed := (isAllowed st).1, reason := (isAllowed st).2, err := none }, 1) := by
  simp [Authorize, hinfo, hauth, hgen, hc]

/-- An unauthenticated request to a 2-segment (hence public) path. -/
def reqShortPath : RestfulRequest :=
  ⟨some { Method := "DELETE", URL := some ⟨"/apis/upload.cdi.kubevirt.io"⟩,
          Header := [], TLS := none }⟩

/-- An authenticated request with headers whose URL path is empty. -/
def reqEmptyPath2 : RestfulRequest :=
  ⟨some { Method := "PUT", URL := some ⟨""⟩, Header := [("a", ["b"])], TLS := some goodTLS }⟩

/-- A `restful.Request` wrapping a nil `*http.Request`. -/
def reqNilRequest : RestfulRequest := ⟨none⟩

/-! ### Claim theorems -/

/-- C6: for every request whose URL path splits into four or fewer
`/`-delimited segments, or whose fifth segment equals the discovery marker
`version`, `Authorize` returns allowed=true with empty reason and nil error
and never invokes the decision client (invocation count 0), regardless of
the request's headers, method, TLS state, configuration or client: the
public check runs first and cannot be bypassed or overridden. -/
theorem c6_public_paths_always_allowed (authConfig : AuthConfig)
    (sarCreate : SubjectAccessReview → Except String SARStatus)
    (req : RestfulRequest) (hr : HttpRequest) (url : GoURL)
    (hreq : req.Request = some hr) (hurl : hr.URL = some url)
    (hpub : (splitSlash url.Path).length ≤ 4 ∨
      ((splitSlash url.Path).length > 4 ∧ (splitSlash url.Path).getD 4 "" = "version")) :
    Authorize authConfig sarCreate req =
      some ({ allowed := true, reason := "", err := none }, 0) := by
  have hinfo : isInfoEndpoint req = true := by
    simp only [isInfoEndpoint, hreq, hurl]
    rw [if_pos hpub]
  exact authorize_of_info hinfo

/-- Witness for C6: a 5-segment path with 5th segment `version` and a
2-segment path are both allowed with no client call, even with no TLS
state and a client that would deny. -/
theorem c6_witness :
    Authorize defaultConfig denyClient reqVersionPath =
      some ({ allowed := true, reason := "", err := none }, 0) :=
  c6_public_paths_always_allowed defaultConfig denyClient reqVersionPath _ _ rfl rfl
    (by decide)

/-- Counterexample to C5 as stated: this request lacks any TLS state
(hence has no verified peer certificate chain), yet `Authorize` returns
allowed=true — because its 2-segment path is classified as an info
endpoint, which is checked before authentication.  The claim asserted
allowed=false for every such request. -/
theorem c5_counterexample :
    isAuthenticated reqShortPath = some false ∧
    Authorize defaultConfig denyClient reqShortPath =
      some ({ allowed := true, reason := "", err := none }, 0) :=
  ⟨rfl, rfl⟩

/-- C5 (amended): for every request that is not classified as an info
endpoint, if its http request object is present but it lacks a verified
peer certificate chain (no transport security context, no peer
certificate, or no verified chain), `Authorize` returns allowed=false with
reason `request is not authenticated` and nil error, and the decision
client is never invoked; on a nil http request with a protected path,
however, `Authorize` does not return a deny — it panics (the log call at
authorizer.go:195 dereferences the nil request before the nil check),
modelled as `none`. -/
theorem c5_unauthenticated_denied (authConfig : AuthConfig)
    (sarCreate : SubjectAccessReview → Except String SARStatus)
    (req : RestfulRequest)
    (hinfo : isInfoEndpoint req = false)
    (hnoauth : ∃ hr, req.Request = some hr ∧
      (hr.TLS = none ∨ ∃ tls, hr.TLS = some tls ∧
        (tls.PeerCertificates.length = 0 ∨ tls.VerifiedChains.length = 0))) :
    Authorize authConfig sarCreate req =
      some ({ allowed := false, reason := "request is not authenticated", err := none }, 0) ∧
    ∀ req2 : RestfulRequest, isInfoEndpoint req2 = false → req2.Request = none →
      Authorize authConfig sarCreate req2 = none := by
  constructor
  · obtain ⟨hr, hhr, h⟩ := hnoauth
    have hauth : isAuthenticated req = some false := by
      rcases h with h | ⟨tls, htls, h⟩
      · simp [isAuthenticated, hhr, h]
      · rcases h with h | h <;> simp [isAuthenticated, hhr, htls, h]
    exact authorize_of_unauth hinfo hauth
  · intro req2 hinfo2 hnil
    exact authorize_of_panic hinfo2 (by simp [isAuthenticated, hnil])

/-- Witness for C5 (amended): a well-formed protected request with no TLS
state is denied as unauthenticated with no client call, even though the
client would have allowed it; a nil http request is not denied but crashes
(modelled as `none`). -/
theorem c5_witness :
    Authorize defaultConfig allowClient reqNoTLS =
      some ({ allowed := false, reason := "request is not authenticated", err := none }, 0) ∧
    Authorize defaultConfig allowClient reqNilRequest = none := by
  have h := c5_unauthenticated_denied defaultConfig allowClient reqNoTLS (by decide)
    ⟨_, rfl, Or.inl rfl⟩
  exact ⟨h.1, h.2 reqNilRequest (by decide) rfl⟩

/-- Counterexample to C2 as stated: a request whose URL path is the empty
string is classified as an info endpoint (public), not as protected, and
`Authorize` short-circuits to allowed=true on it.  The claim asserted the
empty path is classified protected. -/
theorem c2_counterexample :
    isInfoEndpoint reqEmptyPath = true ∧
    Authorize defaultConfig denyClient reqEmptyPath =
      some ({ allowed := true, reason := "", err := none }, 0) :=
  ⟨rfl, rfl⟩

/-- C2 (amended): the endpoint classifier is total (it cannot crash); a
request with a present URL whose path is the empty string splits into one
segment and is classified public, so `Authorize` short-circuits to
allowed=true on it; only a nil http request or nil URL is classified
protected by the classifier. -/
theorem c2_empty_path_classified_public (authConfig : AuthConfig)
    (sarCreate : SubjectAccessReview → Except String SARStatus)
    (req : RestfulRequest) (hr : HttpRequest) (url : GoURL)
    (hreq : req.Request = some hr) (hurl : hr.URL = some url) (hpath : url.Path = "") :
    (isInfoEndpoint req = true ∧
      Authorize authConfig sarCreate req =
        some ({ allowed := true, reason := "", err := none }, 0)) ∧
    ∀ req2 : RestfulRequest,
      (req2.Request = none ∨ ∃ hr2, req2.Request = some hr2 ∧ hr2.URL = none) →
      isInfoEndpoint req2 = false := by
  constructor
  · have hinfo : isInfoEndpoint req = true := by
      simp only [isInfoEndpoint, hreq, hurl, hpath]
      rw [if_pos]
      exact Or.inl (by decide)
    exact ⟨hinfo, authorize_of_info hinfo⟩
  · intro req2 h
    rcases h with h | ⟨hr2, hh, hu⟩
    · simp [isInfoEndpoint, h]
    · simp [isInfoEndpoint, hh, hu]

/-- Witness for C2 (amended): an authenticated request with headers and an
empty path is allowed without any client call, and a nil http request is
classified protected. -/
theorem c2_witness :
    (isInfoEndpoint reqEmptyPath2 = true ∧
      Authorize defaultConfig denyClient reqEmptyPath2 =
        some ({ allowed := true, reason := "", err := none }, 0)) ∧
    isInfoEndpoint reqNilRequest = false :=
  ⟨(c2_empty_path_classified_public defaultConfig denyClient reqEmptyPath2 _ _ rfl rfl
      rfl).1,
   (c2_empty_path_classified_public defaultConfig denyClient reqEmptyPath2 _ _ rfl rfl
      rfl).2 reqNilRequest (Or.inl rfl)⟩

/-! ### Lemmas about `matchHeaders` and `generateAccessReview` -/

theorem matchHeaders_none {headers : Headers} {toMatch : List String}
    (h : ∀ g ∈ toMatch, goMapLookup headers g = none) :
    matchHeaders headers toMatch =
      Except.error ("one of these headers required for authorization: " ++
        formatStringSlice toMatch) := by
  simp [matchHeaders, List.findSome?_eq_none_iff.mpr h]

theorem matchHeaders_isOk_iff {headers : Headers} {toMatch : List String} :
    (∃ v, matchHeaders headers toMatch = Except.ok v) ↔
      ∃ g ∈ toMatch, (goMapLookup headers g).isSome = true := by
  unfold matchHeaders
  cases hfs : toMatch.findSome? (fun header => goMapLookup headers header) with
  | none =>
    simp only []
    constructor
    · rintro ⟨v, hv⟩
      exact absurd hv (by simp)
    · rintro ⟨g, hg, hsome⟩
      have := List.findSome?_eq_none_iff.mp hfs g hg
      rw [this] at hsome
      simp at hsome
  | some v =>
    simp only []
    constructor
    · rintro ⟨w, _⟩
      obtain ⟨g, hg, hgv⟩ := List.exists_of_findSome?_eq_some hfs
      exact ⟨g, hg, by simp [hgv]⟩
    · rintro ⟨g, hg, _⟩
      exact ⟨v, rfl⟩

/-- The tail of `generateAccessReview` once the path has split into exactly
7 segments, as a function of the header map, the upper-cased method, and
the 3rd, 4th, 6th and 7th path segments (0-based indices 2, 3, 5, 6).
Equal to `generateAccessReview` there by `generateAccessReview_seven`. -/
def buildReview (authConfig : AuthConfig) (headers : Headers)
    (methodUpper group version reqNamespace resource : String) :
    Except String SubjectAccessReview :=
  if group ≠ uploadTokenGroup then
    Except.error ("unknown api group " ++ group)
  else if resource ≠ "uploadtokenrequests" then
    Except.error ("unknown resource type " ++ resource)
  else
    match matchHeaders headers authConfig.UserHeaders with
    | Except.error e => Except.error e
    | Except.ok users =>
      if users.length = 0 then
        Except.error ("no user header found")
      else
        match matchHeaders headers authConfig.GroupHeaders with
        | Except.error e => Except.error e
        | Except.ok userGroups =>
          match goMapLookup verbMap methodUpper with
          | none => Except.error ("unsupported HTTP method " ++ methodUpper)
          | some verb =>
            Except.ok
              { Spec :=
                  { User := users.headD ("")
                    Groups := userGroups
                    Extra := getUserExtras headers authConfig.ExtraPrefixHeaders
                    ResourceAttributes := some
                      { Namespace := reqNamespace
                        Verb := verb
                        Group := group
                        Version := version
                        Resource := resource } } }

theorem generateAccessReview_seven (authConfig : AuthConfig) {req : RestfulRequest}
    {hr : HttpRequest} {url : GoURL}
    (hreq : req.Request = some hr) (hurl : hr.URL = some url)
    (h7 : (splitSlash url.Path).length = 7) :
    generateAccessReview authConfig req =
      buildReview authConfig hr.Header (strToUpper hr.Method)
        ((splitSlash url.Path).getD 2 "") ((splitSlash url.Path).getD 3 "")
        ((splitSlash url.Path).getD 5 "") ((splitSlash url.Path).getD 6 "") := by
  simp only [generateAccessReview, buildReview, hreq, hurl, h7]
  simp

theorem generateAccessReview_not_seven (authConfig : AuthConfig) {req : RestfulRequest}
    {hr : HttpRequest} {url : GoURL}
    (hreq : req.Request = some hr) (hurl : hr.URL = some url)
    (h7 : (splitSlash url.Path).length ≠ 7) :
    generateAccessReview authConfig req =
      Except.error ("unknown api endpoint " ++ url.Path) := by
  simp only [generateAccessReview, hreq, hurl]
  rw [if_pos h7]

/-- Counterexample to C3 as stated: a request carrying the configured user
header (with a value) but no group header at all does not yield an access
query with empty groups; `generateAccessReview` fails with the
required-headers error, and the request is denied with that reason even
though the policy client would have allowed it. -/
theorem c3_counterexample :
    generateAccessReview defaultConfig reqNoGroupHeader =
      Except.error ("one of these headers required for authorization: [X-Remote-Group]") ∧
    Authorize defaultConfig allowClient reqNoGroupHeader =
      some
        ({ allowed := false,
           reason := "one of these headers required for authorization: [X-Remote-Group]",
           err := none }, 0) :=
  ⟨rfl, rfl⟩

/-- C3 (amended): when the path and user-header checks pass but none of the
configured group-header names is present in the request headers,
`generateAccessReview` fails with the required-headers error naming the
group headers, and `Authorize` surfaces it as a deny with that reason (nil
error, no client call): the absence of all group headers IS treated as an
error by the code. -/
theorem c3_missing_group_headers_error (authConfig : AuthConfig) (req : RestfulRequest)
    (hr : HttpRequest) (url : GoURL) (users : List String)
    (hreq : req.Request = some hr) (hurl : hr.URL = some url)
    (h7 : (splitSlash url.Path).length = 7)
    (hgrp : (splitSlash url.Path).getD 2 "" = uploadTokenGroup)
    (hres : (splitSlash url.Path).getD 6 "" = "uploadtokenrequests")
    (huser : matchHeaders hr.Header authConfig.UserHeaders = Except.ok users)
    (husers : users.length ≠ 0)
    (hnogroup : ∀ g ∈ authConfig.GroupHeaders, goMapLookup hr.Header g = none) :
    generateAccessReview authConfig req =
      Except.error ("one of these headers required for authorization: " ++
        formatStringSlice authConfig.GroupHeaders) ∧
    ∀ sarCreate, isInfoEndpoint req = false → isAuthenticated req = some true →
      Authorize authConfig sarCreate req =
        some
          ({ allowed := false,
             reason := "one of these headers required for authorization: " ++
               formatStringSlice authConfig.GroupHeaders,
             err := none }, 0) := by
  have hgen : generateAccessReview authConfig req =
      Except.error ("one of these headers required for authorization: " ++
        formatStringSlice authConfig.GroupHeaders) := by
    rw [generateAccessReview_seven authConfig hreq hurl h7]
    simp only [buildReview, hgrp, hres, huser, matchHeaders_none hnogroup]
    simp [husers]
  exact ⟨hgen, fun sarCreate hinfo hauth => authorize_of_genError hinfo hauth hgen⟩

/-- Witness for C3 (amended): concrete instance with the default config and
a request carrying only the user header. -/
theorem c3_witness :
    generateAccessReview defaultConfig reqNoGroupHeader =
      Except.error ("one of these headers required for authorization: " ++
        formatStringSlice defaultConfig.GroupHeaders) :=
  (c3_missing_group_headers_error defaultConfig reqNoGroupHeader _ _ ["alice"]
    rfl rfl (by decide) (by decide) (by decide) rfl (by decide) (by decide)).1

/-- C1: whenever `Authorize` returns at all, its error component is
non-nil exactly when the request is protected, the authentication gate
returns true, the access review is generated, and the SubjectAccessReview
create call fails; a query-construction failure is surfaced as
allowed=false with the error text as reason and nil error, and an
authentication failure (the gate returning false, which requires the http
request to be present) as allowed=false with the fixed reason and nil
error.  On the nil-http-request crash path nothing is returned at all
(`none`), so no error component is ever produced except by a failing
create call. -/
theorem c1_error_taxonomy (authConfig : AuthConfig)
    (sarCreate : SubjectAccessReview → Except String SARStatus) (req : RestfulRequest) :
    ((∃ res, Authorize authConfig sarCreate req = some res ∧ res.1.err ≠ none) ↔
      (isInfoEndpoint req = false ∧ isAuthenticated req = some true ∧
        ∃ r e, generateAccessReview authConfig req = Except.ok r ∧
          sarCreate r = Except.error e)) ∧
    (∀ e, isInfoEndpoint req = false → isAuthenticated req = some true →
      generateAccessReview authConfig req = Except.error e →
      Authorize authConfig sarCreate req =
        some ({ allowed := false, reason := e, err := none }, 0)) ∧
    (isInfoEndpoint req = false → isAuthenticated req = some false →
      Authorize authConfig sarCreate req =
        some ({ allowed := false, reason := "request is not authenticated", err := none }, 0)) := by
  refine ⟨?_, fun e hinfo hauth hgen => authorize_of_genError hinfo hauth hgen,
    fun hinfo hauth => authorize_of_unauth hinfo hauth⟩
  cases hinfo : isInfoEndpoint req with
  | true => simp [authorize_of_info hinfo, hinfo]
  | false =>
    cases hauth : isAuthenticated req with
    | none => simp [authorize_of_panic hinfo hauth, hauth]
    | some auth =>
      cases auth with
      | false => simp [authorize_of_unauth hinfo hauth, hauth]
      | true =>
        cases hgen : generateAccessReview authConfig req with
        | error e => simp [authorize_of_genError hinfo hauth hgen, hgen]
        | ok r =>
          cases hc : sarCreate r with
          | error e =>
            simp only [authorize_of_clientError hinfo hauth hgen hc]
            simp [hinfo, hauth, hgen]
            exact ⟨e, hc⟩
          | ok st => simp [authorize_of_clientOk hinfo hauth hgen hc, hgen, hc]

/-- Witness for C1: with a failing client the error is non-nil on a
well-formed request; a malformed request (no group header) and an
unauthenticated request are denials with nil error. -/
theorem c1_witness :
    (∃ r e, generateAccessReview defaultConfig reqWellFormed = Except.ok r ∧
        errClient r = Except.error e) ∧
    Authorize defaultConfig errClient reqNoGroupHeader =
      some
        ({ allowed := false,
           reason := "one of these headers required for authorization: [X-Remote-Group]",
           err := none }, 0) ∧
    Authorize defaultConfig denyClient reqNoTLS =
      some ({ allowed := false, reason := "request is not authenticated", err := none }, 0) :=
  ⟨((c1_error_taxonomy defaultConfig errClient reqWellFormed).1.mp
      ⟨({ allowed := false, reason := "internal server error", err := some "boom" }, 1),
       rfl, by decide⟩).2.2,
   (c1_error_taxonomy defaultConfig errClient reqNoGroupHeader).2.1 _ (by decide)
     (by decide) rfl,
   (c1_error_taxonomy defaultConfig denyClient reqNoTLS).2.2 (by decide) (by decide)⟩

/-! ### Lemmas about `buildReview` and the verb table -/

theorem goMapLookup_verbMap (m v : String) :
    goMapLookup verbMap m = some v ↔ (m = "POST" ∧ v = "create") := by
  by_cases h : ("POST" : String) = m
  · subst h
    simp [verbMap, goMapLookup, eq_comm]
  · simp only [verbMap, goMapLookup, if_neg h]
    constructor
    · intro hc
      cases hc
    · rintro ⟨hm, -⟩
      exact absurd hm.symm h

theorem buildReview_group_error {authConfig headers mu g ver ns rs}
    (hg : g ≠ uploadTokenGroup) :
    buildReview authConfig headers mu g ver ns rs =
      Except.error ("unknown api group " ++ g) := by
  simp [buildReview, hg]

theorem buildReview_resource_error {authConfig headers mu g ver ns rs}
    (hg : g = uploadTokenGroup) (hrs : rs ≠ "uploadtokenrequests") :
    buildReview authConfig headers mu g ver ns rs =
      Except.error ("unknown resource type " ++ rs) := by
  simp [buildReview, hg, hrs]

theorem buildReview_method_error {authConfig : AuthConfig} {headers mu g ver ns rs}
    (hg : g = uploadTokenGroup) (hrs : rs = "uploadtokenrequests")
    {users : List String}
    (hu : matchHeaders headers authConfig.UserHeaders = Except.ok users)
    (hl : users.length ≠ 0)
    {gs : List String}
    (hgh : matchHeaders headers authConfig.GroupHeaders = Except.ok gs)
    (hv : goMapLookup verbMap mu = none) :
    buildReview authConfig headers mu g ver ns rs =
      Except.error ("unsupported HTTP method " ++ mu) := by
  simp [buildReview, hg, hrs, hu, hl, hgh, hv]

theorem buildReview_ok_iff {authConfig : AuthConfig} {headers mu g ver ns rs} :
    (∃ r, buildReview authConfig headers mu g ver ns rs = Except.ok r) ↔
      (g = uploadTokenGroup ∧ rs = "uploadtokenrequests" ∧
       (∃ users, matchHeaders headers authConfig.UserHeaders = Except.ok users ∧
          users.length ≠ 0) ∧
       (∃ gs, matchHeaders headers authConfig.GroupHeaders = Except.ok gs) ∧
       (∃ verb, goMapLookup verbMap mu = some verb)) := by
  by_cases hg : g = uploadTokenGroup
  · by_cases hrs : rs = "uploadtokenrequests"
    · cases hu : matchHeaders headers authConfig.UserHeaders with
      | error e => simp [buildReview, hg, hrs, hu]
      | ok users =>
        by_cases hl : users.length = 0
        · have husers : users = [] := List.length_eq_zero.mp hl
          subst husers
          simp [buildReview, hg, hrs, hu]
        · cases hgh : matchHeaders headers authConfig.GroupHeaders with
          | error e => simp [buildReview, hg, hrs, hu, hl, hgh]
          | ok gs =>
            cases hv : goMapLookup verbMap mu with
            | none => simp [buildReview, hg, hrs, hu, hl, hgh, hv]
            | some vb =>
              simp [buildReview, hg, hrs, hu, hl, hgh, hv]
              exact fun he => hl (by simp [he])
    · simp [buildReview, hg, hrs]
  · simp [buildReview, hg]

theorem buildReview_attrs {authConfig : AuthConfig} {headers mu g ver ns rs}
    (r : SubjectAccessReview)
    (h : buildReview authConfig headers mu g ver ns rs = Except.ok r) :
    r.Spec.ResourceAttributes = some
      { Namespace := ns, Verb := "create", Group := g, Version := ver, Resource := rs } := by
  by_cases hg : g = uploadTokenGroup
  · by_cases hrs : rs = "uploadtokenrequests"
    · cases hu : matchHeaders headers authConfig.UserHeaders with
      | error e => simp [buildReview, hg, hrs, hu] at h
      | ok users =>
        by_cases hl : users.length = 0
        · simp [buildReview, hg, hrs, hu, hl] at h
        · cases hgh : matchHeaders headers authConfig.GroupHeaders with
          | error e => simp [buildReview, hg, hrs, hu, hl, hgh] at h
          | ok gs =>
            cases hv : goMapLookup verbMap mu with
            | none => simp [buildReview, hg, hrs, hu, hl, hgh, hv] at h
            | some vb =>
              have hvb : vb = "create" := ((goMapLookup_verbMap _ _).mp hv).2
              simp [buildReview, hg, hrs, hu, hl, hgh, hv] at h
              rw [← h]
              simp [hvb, hg, hrs]
    · simp [buildReview, hg, hrs] at h
  · simp [buildReview, hg] at h

/-- C7: access-query construction succeeds exactly when the path splits
into exactly 7 segments, the API-group segment equals the single served
group, the resource segment equals the served resource kind, identity
extraction succeeds (user header with a value; some group header present),
and the upper-cased method is in the fixed verb table (which maps only
`POST` to `create`); on success the resource attributes are
namespace = 6th segment, verb = create, group = 3rd segment, version = 4th
segment, resource = 7th segment; each failure yields its descriptive
error. -/
theorem c7_query_construction (authConfig : AuthConfig) (req : RestfulRequest)
    (hr : HttpRequest) (url : GoURL)
    (hreq : req.Request = some hr) (hurl : hr.URL = some url) :
    ((∃ r, generateAccessReview authConfig req = Except.ok r) ↔
      ((splitSlash url.Path).length = 7 ∧
       (splitSlash url.Path).getD 2 "" = uploadTokenGroup ∧
       (splitSlash url.Path).getD 6 "" = "uploadtokenrequests" ∧
       (∃ users, matchHeaders hr.Header authConfig.UserHeaders = Except.ok users ∧
          users.length ≠ 0) ∧
       (∃ gs, matchHeaders hr.Header authConfig.GroupHeaders = Except.ok gs) ∧
       (∃ verb, goMapLookup verbMap (strToUpper hr.Method) = some verb))) ∧
    (∀ r, generateAccessReview authConfig req = Except.ok r →
       r.Spec.ResourceAttributes = some
         { Namespace := (splitSlash url.Path).getD 5 ""
           Verb := "create"
           Group := (splitSlash url.Path).getD 2 ""
           Version := (splitSlash url.Path).getD 3 ""
           Resource := (splitSlash url.Path).getD 6 "" }) ∧
    ((splitSlash url.Path).length ≠ 7 →
       generateAccessReview authConfig req =
         Except.error ("unknown api endpoint " ++ url.Path)) ∧
    ((splitSlash url.Path).length = 7 →
       (splitSlash url.Path).getD 2 "" ≠ uploadTokenGroup →
       generateAccessReview authConfig req =
         Except.error ("unknown api group " ++ (splitSlash url.Path).getD 2 "")) ∧
    ((splitSlash url.Path).length = 7 →
       (splitSlash url.Path).getD 2 "" = uploadTokenGroup →
       (splitSlash url.Path).getD 6 "" ≠ "uploadtokenrequests" →
       generateAccessReview authConfig req =
         Except.error ("unknown resource type " ++ (splitSlash url.Path).getD 6 "")) ∧
    ((splitSlash url.Path).length = 7 →
       (splitSlash url.Path).getD 2 "" = uploadTokenGroup →
       (splitSlash url.Path).getD 6 "" = "uploadtokenrequests" →
       ∀ users, matchHeaders hr.Header authConfig.UserHeaders = Except.ok users →
         users.length ≠ 0 →
       ∀ gs, matchHeaders hr.Header authConfig.GroupHeaders = Except.ok gs →
       goMapLookup verbMap (strToUpper hr.Method) = none →
       generateAccessReview authConfig req =
         Except.error ("unsupported HTTP method " ++ strToUpper hr.Method)) ∧
    (∀ m v, goMapLookup verbMap m = some v ↔ (m = "POST" ∧ v = "create")) := by
  by_cases h7 : (splitSlash url.Path).length = 7
  · have hgar := generateAccessReview_seven authConfig hreq hurl h7
    refine ⟨?_, ?_, fun h => absurd h7 h, ?_, ?_, ?_, goMapLookup_verbMap⟩
    · rw [hgar, buildReview_ok_iff]
      simp [h7]
    · intro r h
      rw [hgar] at h
      exact buildReview_attrs r h
    · intro _ hg
      rw [hgar]
      exact buildReview_group_error hg
    · intro _ hg hrs
      rw [hgar]
      exact buildReview_resource_error hg hrs
    · intro _ hg hrs users hu hl gs hgh hv
      rw [hgar]
      exact buildReview_method_error hg hrs hu hl hgh hv
  · have hgar := generateAccessReview_not_seven authConfig hreq hurl h7
    refine ⟨?_, ?_, fun _ => hgar, fun h => absurd h h7, fun h => absurd h h7,
      fun h => absurd h h7, goMapLookup_verbMap⟩
    · rw [hgar]
      simp [h7]
    · intro r h
      rw [hgar] at h
      cases h

/-- Witness for C7: the canonical well-formed request is accepted, and its
resource attributes are exactly the expected ones. -/
theorem c7_witness :
    (∃ r, generateAccessReview defaultConfig reqWellFormed = Except.ok r) ∧
    ∀ r, generateAccessReview defaultConfig reqWellFormed = Except.ok r →
      r.Spec.ResourceAttributes = some
        { Namespace := "default", Verb := "create", Group := "upload.cdi.kubevirt.io",
          Version := "v1beta1", Resource := "uploadtokenrequests" } :=
  ⟨(c7_query_construction defaultConfig reqWellFormed _ _ rfl rfl).1.mpr
     ⟨by decide, by decide, by decide, ⟨["alice"], rfl, by decide⟩,
      ⟨["g1", "g2"], rfl⟩, ⟨"create", rfl⟩⟩,
   fun r h => (c7_query_construction defaultConfig reqWellFormed _ _ rfl rfl).2.1 r h⟩

/-- C9: access-query construction never inspects path segments at 0-based
indices 0, 1, 4: for any two requests with identical headers and method
whose paths both split into exactly 7 segments agreeing at indices 2, 3, 5
and 6, `generateAccessReview` yields identical results — the API-prefix
segment, the literal `namespaces` segment, and the segment before the first
slash are irrelevant. -/
theorem c9_unused_segments (authConfig : AuthConfig)
    (req1 req2 : RestfulRequest) (hr1 hr2 : HttpRequest) (url1 url2 : GoURL)
    (hreq1 : req1.Request = some hr1) (hreq2 : req2.Request = some hr2)
    (hurl1 : hr1.URL = some url1) (hurl2 : hr2.URL = some url2)
    (hhdr : hr1.Header = hr2.Header) (hmeth : hr1.Method = hr2.Method)
    (h71 : (splitSlash url1.Path).length = 7)
    (h72 : (splitSlash url2.Path).length = 7)
    (e2 : (splitSlash url1.Path).getD 2 "" = (splitSlash url2.Path).getD 2 "")
    (e3 : (splitSlash url1.Path).getD 3 "" = (splitSlash url2.Path).getD 3 "")
    (e5 : (splitSlash url1.Path).getD 5 "" = (splitSlash url2.Path).getD 5 "")
    (e6 : (splitSlash url1.Path).getD 6 "" = (splitSlash url2.Path).getD 6 "") :
    generateAccessReview authConfig req1 = generateAccessReview authConfig req2 := by
  rw [generateAccessReview_seven authConfig hreq1 hurl1 h71,
    generateAccessReview_seven authConfig hreq2 hurl2 h72, hhdr, hmeth, e2, e3, e5, e6]

/-- A 7-segment path with nonsense in the prefix and `namespaces` slots. -/
def reqWeirdPath : RestfulRequest :=
  ⟨some
    { Method := "POST"
      URL := some ⟨"/x/upload.cdi.kubevirt.io/v1/y/ns/uploadtokenrequests"⟩
      Header := [("X-Remote-User", ["alice"]), ("X-Remote-Group", ["g1"])]
      TLS := some goodTLS }⟩

/-- The canonical counterpart of `reqWeirdPath`. -/
def reqCanonPath : RestfulRequest :=
  ⟨some
    { Method := "POST"
      URL := some ⟨"/apis/upload.cdi.kubevirt.io/v1/namespaces/ns/uploadtokenrequests"⟩
      Header := [("X-Remote-User", ["alice"]), ("X-Remote-Group", ["g1"])]
      TLS := some goodTLS }⟩

/-- Witness for C9: the path `/x/upload.cdi.kubevirt.io/v1/y/ns/uploadtokenrequests`
(arbitrary prefix and `namespaces` slots) is treated exactly like the
canonical path and is accepted with namespace `ns`. -/
theorem c9_witness :
    generateAccessReview defaultConfig reqWeirdPath =
      generateAccessReview defaultConfig reqCanonPath ∧
    (∃ r, generateAccessReview defaultConfig reqWeirdPath = Except.ok r ∧
       r.Spec.ResourceAttributes = some
         { Namespace := "ns", Verb := "create", Group := "upload.cdi.kubevirt.io",
           Version := "v1", Resource := "uploadtokenrequests" }) :=
  ⟨c9_unused_segments defaultConfig reqWeirdPath reqCanonPath _ _ _ _ rfl rfl rfl rfl
     rfl rfl (by decide) (by decide) (by decide) (by decide) (by decide) (by decide),
   ⟨_, rfl, rfl⟩⟩

theorem goMapLookup_mem {β : Type} {l : List (String × β)} {k : String} {v : β}
    (h : goMapLookup l k = some v) : (k, v) ∈ l := by
  induction l with
  | nil => cases h
  | cons kv rest ih =>
    obtain ⟨k1, v1⟩ := kv
    by_cases hk : k1 = k
    · subst hk
      simp only [goMapLookup, if_pos rfl] at h
      obtain rfl := Option.some.inj h
      exact List.mem_cons_self _ _
    · simp only [goMapLookup, if_neg hk] at h
      exact List.mem_cons_of_mem _ (ih h)

/-- C10: identity-header matching is an exact (case-sensitive) lookup of
each configured name — success happens exactly when some configured name is
literally a key of the header map, any value returned belongs to a literal
key, and a name differing only in case misses and produces the
required-headers error — whereas extra-attribute prefix matching is
case-insensitive (a lower-cased header still matches the configured mixed
case prefix and its values are recorded). -/
theorem c10_matching_disciplines :
    (∀ (headers : Headers) (toMatch : List String),
      (∃ v, matchHeaders headers toMatch = Except.ok v) ↔
        ∃ g ∈ toMatch, (goMapLookup headers g).isSome = true) ∧
    (∀ (headers : Headers) (k : String) (v : List String),
      goMapLookup headers k = some v → (k, v) ∈ headers) ∧
    (goMapLookup ([("X-Remote-User", ["alice"])] : Headers) ("x-remote-user") = none) ∧
    (matchHeaders ([("X-Remote-User", ["alice"])] : Headers) ["x-remote-user"] =
      Except.error ("one of these headers required for authorization: [x-remote-user]")) ∧
    (hasPrefixIgnoreCase ("x-remote-extra-scope") ("X-Remote-Extra-") = true) ∧
    (getUserExtras ([("x-remote-extra-Scope", ["read"])] : Headers) ["X-Remote-Extra-"]
      ("scope") = some ["read"]) :=
  ⟨fun _ _ => matchHeaders_isOk_iff, fun _ _ _ h => goMapLookup_mem h,
   rfl, rfl, rfl, rfl⟩

/-- Witness for C10: the exact name succeeds, and the returned value is a
literal entry of the header map. -/
theorem c10_witness :
    (∃ v, matchHeaders ([("X-Remote-User", ["u"])] : Headers) ["X-Remote-User"] =
      Except.ok v) ∧
    ("X-Remote-User", ["u"]) ∈ ([("X-Remote-User", ["u"])] : Headers) :=
  ⟨(c10_matching_disciplines.1 _ _).mpr ⟨"X-Remote-User", by decide, by decide⟩,
   c10_matching_disciplines.2.1 _ _ _ (by decide)⟩

/-! ### Lemmas about the extras fold -/

theorem extras_inner_some_of (headers : Headers) (p : String)
    (m : String → Option (List String)) (key : String) (h : (m key).isSome) :
    ((headers.foldl
      (fun ex kv =>
        if hasPrefixIgnoreCase kv.1 p then
          mapUpdate ex (deriveExtraKey p kv.1) kv.2
        else ex) m) key).isSome := by
  induction headers generalizing m with
  | nil => exact h
  | cons kv rest ih =>
    simp only [List.foldl_cons]
    apply ih
    by_cases hm : hasPrefixIgnoreCase kv.1 p
    · by_cases hk : key = deriveExtraKey p kv.1 <;> simp [hm, mapUpdate, hk, h]
    · simp [hm, h]

theorem extras_inner_written (headers : Headers) (p : String)
    (m : String → Option (List String)) (k : String) (v : List String)
    (hkv : (k, v) ∈ headers) (hm : hasPrefixIgnoreCase k p = true) :
    ((headers.foldl
      (fun ex kv =>
        if hasPrefixIgnoreCase kv.1 p then
          mapUpdate ex (deriveExtraKey p kv.1) kv.2
        else ex) m) (deriveExtraKey p k)).isSome := by
  induction headers generalizing m with
  | nil => cases hkv
  | cons kv rest ih =>
    simp only [List.foldl_cons]
    rcases List.mem_cons.mp hkv with heq | hmem
    · rw [← heq]
      apply extras_inner_some_of
      simp [hm, mapUpdate]
    · exact ih _ hmem

theorem extras_outer_some_of (toMatch : List String) (headers : Headers)
    (m : String → Option (List String)) (key : String) (h : (m key).isSome) :
    ((toMatch.foldl
      (fun extras p =>
        headers.foldl
          (fun ex kv =>
            if hasPrefixIgnoreCase kv.1 p then
              mapUpdate ex (deriveExtraKey p kv.1) kv.2
            else ex) extras) m) key).isSome := by
  induction toMatch generalizing m with
  | nil => exact h
  | cons q rest ih =>
    simp only [List.foldl_cons]
    exact ih _ (extras_inner_some_of headers q m key h)

theorem extras_outer_written (toMatch : List String) (headers : Headers)
    (m : String → Option (List String)) (p k : String) (v : List String)
    (hp : p ∈ toMatch) (hkv : (k, v) ∈ headers) (hm : hasPrefixIgnoreCase k p = true) :
    ((toMatch.foldl
      (fun extras p =>
        headers.foldl
          (fun ex kv =>
            if hasPrefixIgnoreCase kv.1 p then
              mapUpdate ex (deriveExtraKey p kv.1) kv.2
            else ex) extras) m) (deriveExtraKey p k)).isSome := by
  induction toMatch generalizing m with
  | nil => cases hp
  | cons q rest ih =>
    simp only [List.foldl_cons]
    rcases List.mem_cons.mp hp with heq | hmem
    · subst heq
      exact extras_outer_some_of rest headers _ _
        (extras_inner_written headers p m k v hkv hm)
    · exact ih _ hmem

theorem extras_inner_values (headers : Headers) (p : String)
    (m : String → Option (List String)) (key : String) (w : List String)
    (h : (headers.foldl
      (fun ex kv =>
        if hasPrefixIgnoreCase kv.1 p then
          mapUpdate ex (deriveExtraKey p kv.1) kv.2
        else ex) m) key = some w) :
    m key = some w ∨ ∃ k2, (k2, w) ∈ headers ∧ hasPrefixIgnoreCase k2 p = true ∧
      deriveExtraKey p k2 = key := by
  induction headers generalizing m with
  | nil => exact Or.inl h
  | cons kv rest ih =>
    simp only [List.foldl_cons] at h
    rcases ih _ h with hm | ⟨k2, hk2, hpm, hdk⟩
    · by_cases hmm : hasPrefixIgnoreCase kv.1 p
      · by_cases hk : key = deriveExtraKey p kv.1
        · simp only [hmm, if_true, mapUpdate, hk, if_pos rfl] at hm
          obtain rfl := Option.some.inj hm
          exact Or.inr ⟨kv.1, List.mem_cons_self _ _, hmm, hk.symm⟩
        · simp only [hmm, if_true, mapUpdate] at hm
          rw [if_neg hk] at hm
          exact Or.inl hm
      · simp only [hmm] at hm
        simp at hm
        exact Or.inl hm
    · exact Or.inr ⟨k2, List.mem_cons_of_mem _ hk2, hpm, hdk⟩

theorem extras_outer_values (toMatch : List String) (headers : Headers)
    (m : String → Option (List String)) (key : String) (w : List String)
    (h : (toMatch.foldl
      (fun extras p =>
        headers.foldl
          (fun ex kv =>
            if hasPrefixIgnoreCase kv.1 p then
              mapUpdate ex (deriveExtraKey p kv.1) kv.2
            else ex) extras) m) key = some w) :
    m key = some w ∨ ∃ p k2, p ∈ toMatch ∧ (k2, w) ∈ headers ∧
      hasPrefixIgnoreCase k2 p = true ∧ deriveExtraKey p k2 = key := by
  induction toMatch generalizing m with
  | nil => exact Or.inl h
  | cons q rest ih =>
    simp only [List.foldl_cons] at h
    rcases ih _ h with hmq | ⟨p, k2, hp, hk2, hpm, hdk⟩
    · rcases extras_inner_values headers q m key w hmq with hm | ⟨k2, hk2, hpm, hdk⟩
      · exact Or.inl hm
      · exact Or.inr ⟨q, k2, List.mem_cons_self _ _, hk2, hpm, hdk⟩
    · exact Or.inr ⟨p, k2, List.mem_cons_of_mem _ hp, hk2, hpm, hdk⟩

theorem getUserExtras_values {headers : Headers} {toMatch : List String}
    {key : String} {w : List String}
    (h : getUserExtras headers toMatch key = some w) :
    ∃ p k2, p ∈ toMatch ∧ (k2, w) ∈ headers ∧ hasPrefixIgnoreCase k2 p = true ∧
      deriveExtraKey p k2 = key := by
  rcases extras_outer_values toMatch headers (fun _ => none) key w h with hm | hex
  · cases hm
  · exact hex

theorem getUserExtras_written {headers : Headers} {toMatch : List String}
    {p k : String} {v : List String}
    (hp : p ∈ toMatch) (hkv : (k, v) ∈ headers)
    (hm : hasPrefixIgnoreCase k p = true) :
    (getUserExtras headers toMatch (deriveExtraKey p k)).isSome :=
  extras_outer_written toMatch headers (fun _ => none) p k v hp hkv hm

/-- C8: for every configured prefix and every header matching it
case-insensitively, the extras map holds an entry at the derived key
(strip the prefix, lower-case, percent-decode) — the attribute is kept —
and whatever is recorded there is the complete value list of some matching
header deriving that key; if no other matching header collides on the key,
it is exactly this header's full value list.  The derived key is produced
by `unescapeExtraKey` after lower-casing, and `unescapeExtraKey` returns
the decoded key on success and the raw (still-encoded) key when
percent-decoding fails. -/
theorem c8_extra_key_derivation (headers : Headers) (toMatch : List String)
    (p k : String) (v : List String)
    (hp : p ∈ toMatch) (hkv : (k, v) ∈ headers)
    (hm : hasPrefixIgnoreCase k p = true) :
    (∃ w, getUserExtras headers toMatch (deriveExtraKey p k) = some w ∧
       ∃ p2 k2, p2 ∈ toMatch ∧ (k2, w) ∈ headers ∧ hasPrefixIgnoreCase k2 p2 = true ∧
         deriveExtraKey p2 k2 = deriveExtraKey p k) ∧
    ((∀ p2 k2 v2, p2 ∈ toMatch → (k2, v2) ∈ headers → hasPrefixIgnoreCase k2 p2 = true →
        deriveExtraKey p2 k2 = deriveExtraKey p k → v2 = v) →
      getUserExtras headers toMatch (deriveExtraKey p k) = some v) ∧
    (deriveExtraKey p k = unescapeExtraKey (strToLower (strDrop k (strLength p)))) ∧
    (∀ ek, pathUnescape ek = none → unescapeExtraKey ek = ek) ∧
    (∀ ek s, pathUnescape ek = some s → unescapeExtraKey ek = s) := by
  obtain ⟨w, hw⟩ := Option.isSome_iff_exists.mp (getUserExtras_written hp hkv hm)
  refine ⟨⟨w, hw, getUserExtras_values hw⟩, ?_, rfl, ?_, ?_⟩
  · intro huniq
    obtain ⟨p2, k2, hp2, hk2, hm2, hdk⟩ := getUserExtras_values hw
    rw [hw, huniq p2 k2 w hp2 hk2 hm2 hdk]
  · intro ek h
    simp [unescapeExtraKey, h]
  · intro ek s h
    simp [unescapeExtraKey, h]

/-- A single extra header whose suffix fails percent-decoding. -/
def badEncodingHeaders : Headers := [("X-Remote-Extra-%zzScope", ["a", "b"])]

/-- Witness for C8: the suffix `%zzScope` fails percent-decoding, and the
attribute is kept under the raw lower-cased key `%zzscope` with both
values. -/
theorem c8_witness :
    getUserExtras badEncodingHeaders ["X-Remote-Extra-"] ("%zzscope") = some ["a", "b"] ∧
    pathUnescape ("%zzscope") = none :=
  ⟨(c8_extra_key_derivation badEncodingHeaders ["X-Remote-Extra-"] "X-Remote-Extra-"
      "X-Remote-Extra-%zzScope" ["a", "b"] (by decide) (by decide) (by decide)).2.1
    (by
      intro p2 k2 v2 _ hk2 _ _
      simp only [badEncodingHeaders, List.mem_singleton, Prod.mk.injEq] at hk2
      exact hk2.2),
   rfl⟩

/-! ### Permutation invariance of identity extraction -/

theorem mapUpdate_comm {m : String → Option (List String)} {k1 k2 : String}
    {v1 v2 : List String} (h : k1 ≠ k2) :
    mapUpdate (mapUpdate m k1 v1) k2 v2 = mapUpdate (mapUpdate m k2 v2) k1 v1 := by
  funext x
  simp only [mapUpdate]
  by_cases h1 : x = k1 <;> by_cases h2 : x = k2
  · exact absurd (h1.symm.trans h2) h
  · simp [h1, h2, h, Ne.symm h]
  · simp [h1, h2, h, Ne.symm h]
  · simp [h1, h2]

theorem nodup_key_val_unique {l : Headers} {k : String} {v1 v2 : List String}
    (hnd : (l.map Prod.fst).Nodup) (h1 : (k, v1) ∈ l) (h2 : (k, v2) ∈ l) : v1 = v2 := by
  induction l with
  | nil => cases h1
  | cons kv rest ih =>
    simp only [List.map_cons, List.nodup_cons] at hnd
    rcases List.mem_cons.mp h1 with e1 | m1 <;> rcases List.mem_cons.mp h2 with e2 | m2
    · exact congrArg Prod.snd (e1.trans e2.symm)
    · exfalso
      apply hnd.1
      have hkk : kv.1 = k := (congrArg Prod.fst e1).symm
      rw [hkk]
      exact List.mem_map.mpr ⟨(k, v2), m2, rfl⟩
    · exfalso
      apply hnd.1
      have hkk : kv.1 = k := (congrArg Prod.fst e2).symm
      rw [hkk]
      exact List.mem_map.mpr ⟨(k, v1), m1, rfl⟩
    · exact ih hnd.2 m1 m2

theorem goMapLookup_of_mem_nodup {β : Type} {l : List (String × β)} {k : String} {v : β}
    (hnd : (l.map Prod.fst).Nodup) (h : (k, v) ∈ l) : goMapLookup l k = some v := by
  induction l with
  | nil => cases h
  | cons kv rest ih =>
    simp only [List.map_cons, List.nodup_cons] at hnd
    rcases List.mem_cons.mp h with e | m
    · rw [← e]
      simp [goMapLookup]
    · have hk : kv.1 ≠ k := by
        intro he
        exact hnd.1 (he ▸ List.mem_map_of_mem Prod.fst m)
      simp only [goMapLookup, if_neg hk]
      exact ih hnd.2 m

theorem goMapLookup_eq_none_iff {β : Type} {l : List (String × β)} {k : String} :
    goMapLookup l k = none ↔ k ∉ l.map Prod.fst := by
  induction l with
  | nil => simp [goMapLookup]
  | cons kv rest ih =>
    by_cases hk : kv.1 = k
    · simp [goMapLookup, hk]
    · simp only [goMapLookup, if_neg hk]
      rw [ih]
      simp [List.mem_cons, Ne.symm hk]

theorem goMapLookup_perm {β : Type} {l1 l2 : List (String × β)}
    (hperm : l1.Perm l2) (hnd : (l1.map Prod.fst).Nodup) (k : String) :
    goMapLookup l1 k = goMapLookup l2 k := by
  cases h1 : goMapLookup l1 k with
  | none =>
    have hk := goMapLookup_eq_none_iff.mp h1
    have hk2 : k ∉ l2.map Prod.fst := fun hm => hk ((hperm.map Prod.fst).mem_iff.mpr hm)
    exact (goMapLookup_eq_none_iff.mpr hk2).symm
  | some v =>
    have hnd2 : (l2.map Prod.fst).Nodup := (hperm.map Prod.fst).nodup_iff.mp hnd
    exact (goMapLookup_of_mem_nodup hnd2 (hperm.mem_iff.mp (goMapLookup_mem h1))).symm

theorem matchHeaders_perm {l1 l2 : Headers}
    (hperm : l1.Perm l2) (hnd : (l1.map Prod.fst).Nodup) (names : List String) :
    matchHeaders l1 names = matchHeaders l2 names := by
  have hf : (fun header => goMapLookup l1 header) = (fun header => goMapLookup l2 header) :=
    funext (goMapLookup_perm hperm hnd)
  simp only [matchHeaders, hf]

/-- Decidable check: within each configured prefix, distinct header names
that match the prefix derive distinct extra keys (no derived-key
collisions). -/
def extraKeysInjectiveOn (headers : Headers) (toMatch : List String) : Bool :=
  toMatch.all fun p =>
    headers.all fun kv1 =>
      headers.all fun kv2 =>
        !(hasPrefixIgnoreCase kv1.1 p) || !(hasPrefixIgnoreCase kv2.1 p) ||
          (kv1.1 == kv2.1) || !(deriveExtraKey p kv1.1 == deriveExtraKey p kv2.1)

theorem extraKeysInjectiveOn_spec {headers : Headers} {toMatch : List String}
    (h : extraKeysInjectiveOn headers toMatch = true) :
    ∀ p ∈ toMatch, ∀ kv1 ∈ headers, ∀ kv2 ∈ headers,
      hasPrefixIgnoreCase kv1.1 p = true → hasPrefixIgnoreCase kv2.1 p = true →
      deriveExtraKey p kv1.1 = deriveExtraKey p kv2.1 → kv1.1 = kv2.1 := by
  intro p hp kv1 h1 kv2 h2 hm1 hm2 hdk
  by_contra hne
  simp only [extraKeysInjectiveOn, List.all_eq_true] at h
  have hb := h p hp kv1 h1 kv2 h2
  rw [hm1, hm2] at hb
  simp only [Bool.not_true, Bool.false_or, Bool.or_eq_true] at hb
  rcases hb with hb | hb
  · exact hne (by simpa using hb)
  · rw [hdk] at hb
    simp at hb

theorem getUserExtras_perm {headers1 headers2 : Headers} {toMatch : List String}
    (hperm : headers1.Perm headers2) (hnd : (headers1.map Prod.fst).Nodup)
    (hinj : ∀ p ∈ toMatch, ∀ kv1 ∈ headers1, ∀ kv2 ∈ headers1,
      hasPrefixIgnoreCase kv1.1 p = true → hasPrefixIgnoreCase kv2.1 p = true →
      deriveExtraKey p kv1.1 = deriveExtraKey p kv2.1 → kv1.1 = kv2.1) :
    getUserExtras headers1 toMatch = getUserExtras headers2 toMatch := by
  unfold getUserExtras
  suffices H : ∀ (tm : List String),
      (∀ p ∈ tm, ∀ kv1 ∈ headers1, ∀ kv2 ∈ headers1,
        hasPrefixIgnoreCase kv1.1 p = true → hasPrefixIgnoreCase kv2.1 p = true →
        deriveExtraKey p kv1.1 = deriveExtraKey p kv2.1 → kv1.1 = kv2.1) →
      ∀ m, tm.foldl
          (fun extras p =>
            headers1.foldl
              (fun ex kv =>
                if hasPrefixIgnoreCase kv.1 p then
                  mapUpdate ex (deriveExtraKey p kv.1) kv.2
                else ex) extras) m =
        tm.foldl
          (fun extras p =>
            headers2.foldl
              (fun ex kv =>
                if hasPrefixIgnoreCase kv.1 p then
                  mapUpdate ex (deriveExtraKey p kv.1) kv.2
                else ex) extras) m by
    exact H toMatch hinj _
  intro tm
  induction tm with
  | nil =>
    intro _ m
    rfl
  | cons q rest ih =>
    intro hq m
    simp only [List.foldl_cons]
    have hpass : headers1.foldl
        (fun ex kv =>
          if hasPrefixIgnoreCase kv.1 q then
            mapUpdate ex (deriveExtraKey q kv.1) kv.2
          else ex) m =
      headers2.foldl
        (fun ex kv =>
          if hasPrefixIgnoreCase kv.1 q then
            mapUpdate ex (deriveExtraKey q kv.1) kv.2
          else ex) m := by
      apply hperm.foldl_eq'
      intro x hx y hy z
      by_cases hmx : hasPrefixIgnoreCase x.1 q
      · by_cases hmy : hasPrefixIgnoreCase y.1 q
        · by_cases hd : deriveExtraKey q x.1 = deriveExtraKey q y.1
          · have hxy : x.1 = y.1 :=
              hq q (List.mem_cons_self q rest) x hx y hy hmx hmy hd
            have hy2 : (x.1, y.2) ∈ headers1 := by
              rw [hxy]
              exact hy
            have hv : x.2 = y.2 := nodup_key_val_unique hnd hx hy2
            have hxey : x = y := Prod.ext hxy hv
            rw [hxey]
          · simp only [hmx, hmy, if_true]
            exact mapUpdate_comm hd
        · simp [hmx, hmy]
      · by_cases hmy : hasPrefixIgnoreCase y.1 q <;> simp [hmx, hmy]
    rw [hpass]
    exact ih (fun p hp => hq p (List.mem_cons_of_mem _ hp)) _

/-- Two header maps with the same entries in different iteration orders,
where two distinct header names derive the same extra key `a` under the
configured prefix (`a` directly, and `%61` which percent-decodes to `a`). -/
def collidingHeadersA : Headers :=
  [("X-Remote-Extra-a", ["1"]), ("X-Remote-Extra-%61", ["2"])]

/-- The same header map as `collidingHeadersA` in the other iteration
order. -/
def collidingHeadersB : Headers :=
  [("X-Remote-Extra-%61", ["2"]), ("X-Remote-Extra-a", ["1"])]

/-- Counterexample to C4 as stated: the two association lists represent the
same header multimap (a permutation with distinct keys), the config is
fixed, and two distinct header names derive the same extra key under the
single prefix — yet the two extractions disagree at that key.  Since Go
leaves map iteration order unspecified, the extraction result is not
uniquely determined by the header multimap and config in the collision
case. -/
theorem c4_counterexample :
    collidingHeadersA.Perm collidingHeadersB ∧
    (collidingHeadersA.map Prod.fst).Nodup ∧
    ("X-Remote-Extra-a" : String) ≠ "X-Remote-Extra-%61" ∧
    deriveExtraKey ("X-Remote-Extra-") ("X-Remote-Extra-a") =
      deriveExtraKey ("X-Remote-Extra-") ("X-Remote-Extra-%61") ∧
    getUserExtras collidingHeadersA ["X-Remote-Extra-"] ("a") = some ["2"] ∧
    getUserExtras collidingHeadersB ["X-Remote-Extra-"] ("a") = some ["1"] :=
  ⟨by decide, by decide, by decide, rfl, rfl, rfl⟩

/-- C4 (amended): identity extraction is a pure function of the header
list, the iteration order included; and whenever no two distinct header
names matching a common configured prefix derive the same extra key, it is
uniquely determined by the header multimap alone — user, groups and extras
are invariant under permuting the (duplicate-free) header entries.  In the
collision case the result depends on the header-map iteration order, which
Go does not fix. -/
theorem c4_extraction_deterministic (headers1 headers2 : Headers) (toMatch : List String)
    (hperm : headers1.Perm headers2)
    (hnd : (headers1.map Prod.fst).Nodup)
    (hinj : extraKeysInjectiveOn headers1 toMatch = true) :
    getUserExtras headers1 toMatch = getUserExtras headers2 toMatch ∧
    ∀ names, matchHeaders headers1 names = matchHeaders headers2 names :=
  ⟨getUserExtras_perm hperm hnd (extraKeysInjectiveOn_spec hinj),
   fun names => matchHeaders_perm hperm hnd names⟩

/-- A collision-free header map. -/
def plainHeadersA : Headers :=
  [("X-Remote-Extra-Scope", ["read"]), ("X-Remote-User", ["alice"])]

/-- The same header map as `plainHeadersA` in the other iteration order. -/
def plainHeadersB : Headers :=
  [("X-Remote-User", ["alice"]), ("X-Remote-Extra-Scope", ["read"])]

/-- Witness for C4 (amended): without derived-key collisions the extras
map and the user lookup do not depend on the iteration order. -/
theorem c4_witness :
    getUserExtras plainHeadersA ["X-Remote-Extra-"] =
      getUserExtras plainHeadersB ["X-Remote-Extra-"] ∧
    matchHeaders plainHeadersA ["X-Remote-User"] =
      matchHeaders plainHeadersB ["X-Remote-User"] := by
  have h := c4_extraction_deterministic plainHeadersA plainHeadersB ["X-Remote-Extra-"]
    (by decide) (by decide) (by decide)
  exact ⟨h.1, h.2 ["X-Remote-User"]⟩

end CdiAuthorizer
